import Mathlib

/-!
Verification development for the SGX value-tracker application
(`src/app.py`).

Embedding conventions:
* Python strings are modelled as lists of characters (`PyStr`); the
  upstream ticker data is ASCII, so `Char.toUpper` models `str.upper`.
* The raw quote payload (the `info` dict) is an association list from
  `String` keys to heterogeneous Python values (`PVal`): a number, a
  string, or Python `None` (`PVal.null`).
* Python numbers are modelled as rationals.
* The upstream quote source is an explicit argument of type
  `Except PyErr RawInfo`: `Except.error` models any exception raised
  while talking to the source (the body of the `try` block), and
  `Except.ok` models a returned payload.  The persisted watchlist file
  is likewise an explicit `Option (Except PyErr (List WatchlistEntry))`
  argument: `Option.none` models a missing file, `Except.error` a file
  whose contents `json.load` rejects.
* `fetch_safe_data`, `SGXEngine.calculate_fees`, `load_watchlist` and
  the add-button handler are translated from `src/app.py`.  The scoring
  engine of the specification has no counterpart in `src/app.py`; it is
  modelled from the specification and clearly marked as such.
-/

/-- A Python string, modelled as its list of characters. -/
abbrev PyStr := List Char

/-- Python `str.upper` (ASCII fragment, enough for ticker symbols). -/
def pyUpper (s : PyStr) : PyStr := s.map Char.toUpper

/-- Python `str.strip`: drop whitespace from both ends. -/
def pyStrip (s : PyStr) : PyStr :=
  ((s.dropWhile Char.isWhitespace).reverse.dropWhile Char.isWhitespace).reverse

/-- Python `s.endswith(suf)`. -/
def pyEndsWith (s suf : PyStr) : Bool := List.isSuffixOf suf s

/-- A heterogeneous Python value as stored in the upstream payload:
a number, a string, or Python `None`. -/
inductive PVal where
  | num (q : ℚ)
  | str (s : PyStr)
  | null
deriving DecidableEq

/-- The raw payload (`stock.info`): a dict from field names to values. -/
abbrev RawInfo := List (String × PVal)

/-- Python `dict` key lookup (first binding wins, as dict keys are unique). -/
def dictLookup : RawInfo → String → Option PVal
  | [], _ => Option.none
  | (k, v) :: rest, key => if k = key then Option.some v else dictLookup rest key

/-- Python `info.get(key, dflt)`. -/
def dictGet (info : RawInfo) (key : String) (dflt : PVal) : PVal :=
  (dictLookup info key).getD dflt

/-- Python `key in info`. -/
def hasKey (info : RawInfo) (key : String) : Bool := (dictLookup info key).isSome

/-- An exception raised while talking to the upstream quote source. -/
inductive PyErr where
  | timeout
  | malformed
  | notFound
deriving DecidableEq

/-- The fixed market suffix `".SI"` (line 32 of `src/app.py`). -/
def siStr : PyStr := ".SI".toList

/-- The fallback display name `"Unknown"` (line 48 of `src/app.py`). -/
def unknownName : PyStr := "Unknown".toList

/-- Key `"currentPrice"`. -/
def currentPriceKey : String := "currentPrice"

/-- Key `"longName"`. -/
def longNameKey : String := "longName"

/-- Key `"trailingPE"`. -/
def trailingPEKey : String := "trailingPE"

/-- Key `"dividendRate"`. -/
def dividendRateKey : String := "dividendRate"

/-- Key `"bookValue"`. -/
def bookValueKey : String := "bookValue"

/-- Key `"returnOnEquity"`. -/
def returnOnEquityKey : String := "returnOnEquity"

/-- Key `"totalCash"`. -/
def totalCashKey : String := "totalCash"

/-- Key `"totalDebt"`. -/
def totalDebtKey : String := "totalDebt"

/-- Key `"regularMarketPrice"` (a field the specification mentions as a
fallback price source; `src/app.py` never reads it). -/
def regularMarketPriceKey : String := "regularMarketPrice"

/-- The record built on lines 46-56 of `src/app.py` for a successful fetch. -/
structure Quote where
  symbol : PyStr
  name : PVal
  price : PVal
  pe : PVal
  div : PVal
  bv : PVal
  roe : PVal
  cash : PVal
  debt : PVal
deriving DecidableEq

/-- Python `x * 100` on a heterogeneous value, as applied to
`info.get("returnOnEquity", 0)` on line 53: numbers are scaled, strings
are repeated (Python string repetition), and `None * 100` raises a
`TypeError`, modelled as `Option.none` (the exception is caught by the
surrounding `except` clause). -/
def pyMul100 : PVal → Option PVal
  | PVal.num q => Option.some (PVal.num (q * 100))
  | PVal.str s => Option.some (PVal.str (List.flatten (List.replicate 100 s)))
  | PVal.null => Option.none

/-- Line 32 of `src/app.py`:
`symbol = ticker if ticker.endswith(".SI") else ticker + ".SI"`. -/
def symbolOf (ticker : PyStr) : PyStr :=
  if pyEndsWith ticker siStr then ticker else ticker ++ siStr

/-- `fetch_safe_data` (lines 28-58 of `src/app.py`).  The upstream
source is an explicit argument; `Except.error` models any exception
raised inside the `try` block by the network calls. -/
def fetch_safe_data (ticker : PyStr) (upstream : Except PyErr RawInfo) : Option Quote :=
  if ticker.isEmpty then Option.none
  else
    let symbol := symbolOf ticker
    match upstream with
    | Except.error _ => Option.none
    | Except.ok info =>
      if info.isEmpty || !hasKey info currentPriceKey then Option.none
      else
        match pyMul100 (dictGet info returnOnEquityKey (PVal.num 0)) with
        | Option.none => Option.none
        | Option.some roeVal =>
          Option.some (Quote.mk symbol
            (dictGet info longNameKey (PVal.str unknownName))
            (dictGet info currentPriceKey (PVal.num 0))
            (dictGet info trailingPEKey (PVal.num 0))
            (dictGet info dividendRateKey (PVal.num 0))
            (dictGet info bookValueKey (PVal.num 1))
            roeVal
            (dictGet info totalCashKey (PVal.num 0))
            (dictGet info totalDebtKey (PVal.num 0)))

/-- One persisted watchlist record `{"Ticker": ..., "Name": ...}`. -/
structure WatchlistEntry where
  Ticker : PyStr
  Name : PyStr
deriving DecidableEq

/-- `load_watchlist` (lines 11-19 of `src/app.py`).  The storage state is
explicit: `Option.none` is a missing file, `Except.error` a file whose
contents `json.load` rejects, `Except.ok` a successfully parsed list. -/
def load_watchlist (storage : Option (Except PyErr (List WatchlistEntry))) :
    List WatchlistEntry :=
  match storage with
  | Option.none => []
  | Option.some (Except.error _) => []
  | Option.some (Except.ok wl) => wl

/-- The add-button handler (lines 93-96 of `src/app.py`): append
`{"Ticker": sym, "Name": nm}` unless an entry with the same `Ticker`
already exists. -/
def addButton (wl : List WatchlistEntry) (sym nm : PyStr) : List WatchlistEntry :=
  if wl.any (fun item => decide (item.Ticker = sym)) then wl
  else wl ++ [WatchlistEntry.mk sym nm]

/-- The canonical symbol computed for a raw user input: line 83 applies
`.upper().strip()` to the text-input value, and line 32 appends the
market suffix unless already present. -/
def canonSymbol (raw : PyStr) : PyStr := symbolOf (pyStrip (pyUpper raw))

/-- The full add flow for a raw typed ticker: the search tab normalizes
the input (line 83), the fetch derives the stored symbol (line 32), and
the button handler appends if absent (lines 93-96). -/
def uiAdd (wl : List WatchlistEntry) (raw nm : PyStr) : List WatchlistEntry :=
  addButton wl (canonSymbol raw) nm

/-- The ticker with letter case and market suffix stripped away: two raw
inputs differ only in case, surrounding whitespace and/or presence of
the `".SI"` suffix exactly when they have the same `baseSymbol`. -/
def baseSymbol (raw : PyStr) : PyStr :=
  if pyEndsWith (pyStrip (pyUpper raw)) siStr then
    (pyStrip (pyUpper raw)).take ((pyStrip (pyUpper raw)).length - siStr.length)
  else pyStrip (pyUpper raw)

/-- Round half to even (banker's rounding, Python `round`). -/
def roundHalfEven (q : ℚ) : ℤ :=
  if q - ⌊q⌋ < 1/2 then ⌊q⌋
  else if 1/2 < q - ⌊q⌋ then ⌊q⌋ + 1
  else if ⌊q⌋ % 2 = 0 then ⌊q⌋ else ⌊q⌋ + 1

/-- Python `round(x, 2)`. -/
def round2 (q : ℚ) : ℚ := (roundHalfEven (q * 100) : ℤ) / 100

namespace SGXEngine

/-- `SGXEngine.calculate_fees` (lines 63-68 of `src/app.py`). -/
def calculate_fees (trade_value : ℚ) : ℚ :=
  round2 ((max (trade_value * 0.0003) 0.99 + trade_value * 0.0004 + 0.35) * 1.09)

end SGXEngine

/-- Modelled from the spec: the ValuationEngine of specification section
4.2 has no counterpart in `src/app.py` (the watchlist tab only displays
raw ratios); its canonical `Quote` input is taken from the
specification data model, with `trailing_pe` either a number or the
explicit not-applicable marker (`Option.none`). -/
structure SpecQuote where
  price : ℚ
  trailing_pe : Option ℚ
  dividend_rate : ℚ
  book_value : ℚ
  return_on_equity_pct : ℚ
  cash : ℚ
  debt : ℚ
deriving DecidableEq

/-- Modelled from the spec: Earnings sub-score, 2 points when
`trailing_pe` is numeric and strictly below 15. -/
def scoreEarnings (q : SpecQuote) : ℕ :=
  match q.trailing_pe with
  | Option.some pe => if pe < 15 then 2 else 0
  | Option.none => 0

/-- Modelled from the spec: Book-value sub-score, 2 points when
`price / book_value` is strictly below 1. -/
def scoreBook (q : SpecQuote) : ℕ :=
  if q.price / q.book_value < 1 then 2 else 0

/-- Modelled from the spec: dividend yield in percent, 0 when the price
is not positive. -/
def dividendYieldPct (q : SpecQuote) : ℚ :=
  if 0 < q.price then q.dividend_rate / q.price * 100 else 0

/-- Modelled from the spec: Yield sub-score, 2 points when the dividend
yield strictly exceeds 4.5 percent. -/
def scoreYield (q : SpecQuote) : ℕ :=
  if 4.5 < dividendYieldPct q then 2 else 0

/-- Modelled from the spec: Profitability sub-score, 2 points when
return on equity strictly exceeds 10 percent. -/
def scoreProfit (q : SpecQuote) : ℕ :=
  if 10 < q.return_on_equity_pct then 2 else 0

/-- Modelled from the spec: Balance-sheet sub-score, 2 points when net
cash (cash minus debt) is strictly positive. -/
def scoreBalance (q : SpecQuote) : ℕ :=
  if 0 < q.cash - q.debt then 2 else 0

/-- Modelled from the spec: total score, the sum of the five sub-scores. -/
def totalScore (q : SpecQuote) : ℕ :=
  scoreEarnings q + scoreBook q + scoreYield q + scoreProfit q + scoreBalance q

/-- Concrete ticker inputs used in the evaluation theorems below. -/
def tD05 : PyStr := "D05".toList

/-- The canonical form of `tD05`. -/
def tD05SI : PyStr := "D05.SI".toList

/-- A lower-case, suffixed, whitespace-padded variant of `tD05`. -/
def tD05lower : PyStr := " d05.si ".toList

/-- A display name used in the watchlist examples. -/
def nDBS : PyStr := "DBS".toList

/-- Payload whose upstream book value is exactly zero. -/
def infoBvZero : RawInfo :=
  [(currentPriceKey, PVal.num 10), (bookValueKey, PVal.num 0)]

/-- Payload with no current price but a regular market price. -/
def infoRmpOnly : RawInfo := [(regularMarketPriceKey, PVal.num 5)]

/-- Payload with a current price and no name field. -/
def infoNoName : RawInfo := [(currentPriceKey, PVal.num 1)]

/-- Rounding half to even never goes below the floor. -/
theorem floor_le_roundHalfEven (q : ℚ) : ⌊q⌋ ≤ roundHalfEven q := by
  unfold roundHalfEven
  split_ifs <;> omega

/-- Claim C1 (counterexample): `calculate_fees 0` is not `0.38`; the
broker-commission floor of `0.99` applies even at a trade value of 0,
so the flat settlement fee is not the only contribution. -/
theorem fees_at_zero_ne_claimed : SGXEngine.calculate_fees 0 ≠ 0.38 := by
  norm_num [SGXEngine.calculate_fees, round2, roundHalfEven]

/-- Claim C1 (amended): `calculate_fees 0` equals `1.46`: the broker
commission is floored at `0.99`, the exchange fee is 0, the settlement
fee is `0.35`, and `(0.99 + 0 + 0.35) * 1.09 = 1.4606` rounds to
`1.46` at 2 decimal places. -/
theorem fees_at_zero_eq : SGXEngine.calculate_fees 0 = 1.46 := by
  norm_num [SGXEngine.calculate_fees, round2, roundHalfEven]

/-- Claim C9 (confirmed): for every non-negative trade value the fee is
at least `1.46`, because the broker commission is floored at `0.99` and
the flat `0.35` settlement fee always applies before the `1.09` tax
multiplier. -/
theorem fees_lower_bound (v : ℚ) (h : 0 ≤ v) : 1.46 ≤ SGXEngine.calculate_fees v := by
  unfold SGXEngine.calculate_fees round2
  have h1 : (0.99 : ℚ) ≤ max (v * 0.0003) 0.99 := le_max_right _ _
  have h2 : (0 : ℚ) ≤ v * 0.0004 := mul_nonneg h (by norm_num)
  have hsum : (1.34 : ℚ) ≤ max (v * 0.0003) 0.99 + v * 0.0004 + 0.35 := by linarith
  have hx : (1.4606 : ℚ) ≤ (max (v * 0.0003) 0.99 + v * 0.0004 + 0.35) * 1.09 := by
    nlinarith
  have hfloor : (146 : ℤ) ≤ ⌊(max (v * 0.0003) 0.99 + v * 0.0004 + 0.35) * 1.09 * 100⌋ := by
    refine Int.le_floor.mpr ?_
    push_cast
    linarith
  have hr := le_trans hfloor
    (floor_le_roundHalfEven ((max (v * 0.0003) 0.99 + v * 0.0004 + 0.35) * 1.09 * 100))
  have hq : (146 : ℚ) ≤
      ((roundHalfEven ((max (v * 0.0003) 0.99 + v * 0.0004 + 0.35) * 1.09 * 100) : ℤ) : ℚ) := by
    exact_mod_cast hr
  linarith

/-- Claim C9 (witness): at trade value 0 the hypothesis holds and the
fee is at least `1.46`. -/
theorem fees_lower_bound_witness : (0 : ℚ) ≤ 0 ∧ (1.46 : ℚ) ≤ SGXEngine.calculate_fees 0 :=
  ⟨le_refl 0, fees_lower_bound 0 (le_refl 0)⟩

/-- Each sub-score of the modelled ValuationEngine is binary: 0 or 2. -/
theorem subscore_binary (q : SpecQuote) :
    (scoreEarnings q = 0 ∨ scoreEarnings q = 2) ∧
    (scoreBook q = 0 ∨ scoreBook q = 2) ∧
    (scoreYield q = 0 ∨ scoreYield q = 2) ∧
    (scoreProfit q = 0 ∨ scoreProfit q = 2) ∧
    (scoreBalance q = 0 ∨ scoreBalance q = 2) := by
  refine ⟨?_, ?_, ?_, ?_, ?_⟩
  · unfold scoreEarnings
    rcases q.trailing_pe with _ | pe
    · simp
    · by_cases h : pe < 15 <;> simp [h]
  · unfold scoreBook
    split <;> simp
  · unfold scoreYield
    split <;> simp
  · unfold scoreProfit
    split <;> simp
  · unfold scoreBalance
    split <;> simp

/-- Claim C4 (confirmed, engine modelled from the spec): the total score
is the sum of five independently evaluated binary sub-scores, each
worth 2 points, hence an even natural number of at most 10. -/
theorem totalScore_even_le_ten (q : SpecQuote) :
    totalScore q =
      scoreEarnings q + scoreBook q + scoreYield q + scoreProfit q + scoreBalance q ∧
    2 ∣ totalScore q ∧ totalScore q ≤ 10 := by
  obtain ⟨h1, h2, h3, h4, h5⟩ := subscore_binary q
  refine ⟨rfl, ?_, ?_⟩ <;>
    · unfold totalScore
      rcases h1 with h1 | h1 <;> rcases h2 with h2 | h2 <;> rcases h3 with h3 | h3 <;>
        rcases h4 with h4 | h4 <;> rcases h5 with h5 | h5 <;>
        rw [h1, h2, h3, h4, h5] <;> decide

/-- Claim C8 (confirmed): loading the watchlist from a missing file or
from a file whose contents fail to parse yields the empty watchlist;
`load_watchlist` is a total function, so it never raises. -/
theorem load_watchlist_total_on_failure (e : PyErr) :
    load_watchlist Option.none = [] ∧
    load_watchlist (Option.some (Except.error e)) = [] :=
  ⟨rfl, rfl⟩

/-- Claim C10 (confirmed): an empty (falsy) ticker makes
`fetch_safe_data` return `None` whatever the upstream source would have
answered, so no canonical symbol is derived and the source is never
consulted. -/
theorem fetch_empty_ticker_absent (u : Except PyErr RawInfo) :
    fetch_safe_data [] u = Option.none := rfl

/-- Claim C2 (code bug): a payload whose `bookValue` field is exactly 0
produces a Quote that stores `bv = 0` — the default of 1 on line 52
applies only when the key is absent, so the zero is not replaced and
the downstream `price / bv` division is undefended. -/
theorem bookValue_zero_passes_through :
    (fetch_safe_data tD05 (Except.ok infoBvZero)).map Quote.bv =
      Option.some (PVal.num 0) := by decide

/-- Claim C3 (counterexample): a non-empty payload carrying a numeric
`regularMarketPrice` but no `currentPrice` is rejected: the code checks
only `currentPrice` and has no regular-market-price or historical
fallback. -/
theorem fetch_ignores_regularMarketPrice :
    fetch_safe_data tD05 (Except.ok infoRmpOnly) = Option.none ∧
    infoRmpOnly ≠ ([] : RawInfo) ∧
    dictLookup infoRmpOnly regularMarketPriceKey = Option.some (PVal.num 5) := by
  refine ⟨by decide, by decide, by decide⟩

/-- Claim C5 (confirmed): every exception raised while talking to the
upstream source yields `None`, never a partially populated Quote, and
that outcome coincides with the one for a valid response carrying no
current price. -/
theorem fetch_error_eq_absent (t : PyStr) (e : PyErr) (info : RawInfo) :
    fetch_safe_data t (Except.error e) = Option.none ∧
    (hasKey info currentPriceKey = false →
      fetch_safe_data t (Except.ok info) = fetch_safe_data t (Except.error e)) := by
  constructor
  · by_cases ht : t.isEmpty <;> simp [fetch_safe_data, ht]
  · intro h
    by_cases ht : t.isEmpty <;> simp [fetch_safe_data, ht, h]

/-- Claim C5 (witness): a timeout on ticker `D05` and an empty payload
are both `None`. -/
theorem fetch_error_eq_absent_witness :
    fetch_safe_data tD05 (Except.error PyErr.timeout) = Option.none ∧
    fetch_safe_data tD05 (Except.ok []) = fetch_safe_data tD05 (Except.error PyErr.timeout) :=
  ⟨(fetch_error_eq_absent tD05 PyErr.timeout []).1,
   (fetch_error_eq_absent tD05 PyErr.timeout []).2 (by decide)⟩

/-- Claim C3 (amended): for a non-empty ticker, `fetch_safe_data` on a
returned payload yields `None` exactly when the payload is empty, or
the `currentPrice` key is missing, or the `returnOnEquity` value is
Python `None` (whose multiplication by 100 raises and is swallowed by
the `except` clause); no other price field is ever consulted. -/
theorem fetch_none_iff (t : PyStr) (info : RawInfo) (ht : t.isEmpty = false) :
    fetch_safe_data t (Except.ok info) = Option.none ↔
      info.isEmpty = true ∨ dictLookup info currentPriceKey = Option.none ∨
        dictLookup info returnOnEquityKey = Option.some PVal.null := by
  by_cases h1 : info.isEmpty
  · simp [fetch_safe_data, ht, h1]
  · cases hcp : dictLookup info currentPriceKey with
    | none => simp [fetch_safe_data, ht, h1, hasKey, hcp]
    | some v =>
      cases hroe : dictLookup info returnOnEquityKey with
      | none => simp [fetch_safe_data, ht, h1, hasKey, hcp, dictGet, hroe, pyMul100]
      | some w =>
        cases w <;> simp [fetch_safe_data, ht, h1, hasKey, hcp, dictGet, hroe, pyMul100]

/-- Claim C3 (witness): ticker `D05` is non-empty, and on the empty
payload the equivalence holds. -/
theorem fetch_none_iff_witness :
    tD05.isEmpty = false ∧
    (fetch_safe_data tD05 (Except.ok []) = Option.none ↔
      ([] : RawInfo).isEmpty = true ∨ dictLookup ([] : RawInfo) currentPriceKey = Option.none ∨
        dictLookup ([] : RawInfo) returnOnEquityKey = Option.some PVal.null) :=
  ⟨by decide, fetch_none_iff tD05 [] (by decide)⟩

/-- Claim C7 (counterexample): on a payload with a price but no
`longName`, the produced Quote has name `"Unknown"`, which is not its
canonical symbol `"D05.SI"`. -/
theorem name_fallback_not_symbol :
    (fetch_safe_data tD05 (Except.ok infoNoName)).map Quote.name =
      Option.some (PVal.str unknownName) ∧
    (fetch_safe_data tD05 (Except.ok infoNoName)).map Quote.symbol =
      Option.some tD05SI ∧
    PVal.str unknownName ≠ PVal.str tD05SI := by
  refine ⟨by decide, by decide, by decide⟩

/-- Claim C7 (amended): whenever the upstream payload has no `longName`
field and the fetch succeeds, the Quote's name is the fixed string
`"Unknown"` (not the canonical symbol). -/
theorem name_defaults_to_unknown (t : PyStr) (info : RawInfo)
    (hln : dictLookup info longNameKey = Option.none)
    (hs : (fetch_safe_data t (Except.ok info)).isSome = true) :
    (fetch_safe_data t (Except.ok info)).map Quote.name =
      Option.some (PVal.str unknownName) := by
  by_cases ht : t.isEmpty
  · simp [fetch_safe_data, ht] at hs
  · by_cases h1 : info.isEmpty
    · simp [fetch_safe_data, ht, h1] at hs
    · cases hcp : dictLookup info currentPriceKey with
      | none => simp [fetch_safe_data, ht, h1, hasKey, hcp] at hs
      | some v =>
        cases hroe : dictLookup info returnOnEquityKey with
        | none =>
          simp [fetch_safe_data, ht, h1, hasKey, hcp, dictGet, hroe, pyMul100, hln]
        | some w =>
          cases w <;>
            simp [fetch_safe_data, ht, h1, hasKey, hcp, dictGet, hroe, pyMul100, hln] at hs ⊢

/-- Claim C7 (witness): on the concrete payload with only a price, the
hypotheses hold and the name is `"Unknown"`. -/
theorem name_defaults_to_unknown_witness :
    dictLookup infoNoName longNameKey = Option.none ∧
    (fetch_safe_data tD05 (Except.ok infoNoName)).isSome = true ∧
    (fetch_safe_data tD05 (Except.ok infoNoName)).map Quote.name =
      Option.some (PVal.str unknownName) :=
  ⟨by decide, by decide, name_defaults_to_unknown tD05 infoNoName (by decide) (by decide)⟩

/-- The canonical symbol is the suffix-stripped base followed by the
market suffix, whether or not the normalized input already carried it. -/
theorem canonSymbol_eq_base (raw : PyStr) :
    canonSymbol raw = baseSymbol raw ++ siStr := by
  unfold canonSymbol symbolOf baseSymbol
  by_cases h : pyEndsWith (pyStrip (pyUpper raw)) siStr
  · rw [if_pos h, if_pos h]
    unfold pyEndsWith at h
    obtain ⟨p, hp⟩ := List.isSuffixOf_iff_suffix.mp h
    rw [← hp, List.length_append, Nat.add_sub_cancel, List.take_left]
  · rw [if_neg h, if_neg h]

/-- Claim C6 (confirmed): two add calls whose raw tickers differ only in
letter case, surrounding whitespace and/or presence of the market
suffix leave exactly one entry for that canonical symbol: starting from
a watchlist without it, the first call appends at the end and the
second is a no-op. -/
theorem uiAdd_same_symbol_once (raw1 raw2 n1 n2 : PyStr) (wl : List WatchlistEntry)
    (hsame : baseSymbol raw1 = baseSymbol raw2)
    (habsent : wl.all (fun item => !decide (item.Ticker = canonSymbol raw1)) = true) :
    uiAdd (uiAdd wl raw1 n1) raw2 n2 =
      wl ++ [WatchlistEntry.mk (canonSymbol raw1) n1] ∧
    (uiAdd (uiAdd wl raw1 n1) raw2 n2).countP
      (fun item => decide (item.Ticker = canonSymbol raw1)) = 1 := by
  have hc : canonSymbol raw2 = canonSymbol raw1 := by
    rw [canonSymbol_eq_base, canonSymbol_eq_base, hsame]
  have hany : wl.any (fun item => decide (item.Ticker = canonSymbol raw1)) = false := by
    rw [List.any_eq_false]
    intro x hx
    have hx2 := List.all_eq_true.mp habsent x hx
    simpa using hx2
  have h1 : uiAdd wl raw1 n1 = wl ++ [WatchlistEntry.mk (canonSymbol raw1) n1] := by
    unfold uiAdd addButton
    rw [hany]
    simp
  have h2 : uiAdd (uiAdd wl raw1 n1) raw2 n2 = uiAdd wl raw1 n1 := by
    rw [h1]
    unfold uiAdd addButton
    rw [hc]
    have hfound : (wl ++ [WatchlistEntry.mk (canonSymbol raw1) n1]).any
        (fun item => decide (item.Ticker = canonSymbol raw1)) = true := by
      simp [List.any_append]
    simp [hfound]
  have hc0 : wl.countP (fun item => decide (item.Ticker = canonSymbol raw1)) = 0 := by
    refine List.countP_eq_zero.mpr ?_
    intro a ha
    have ha2 := List.all_eq_true.mp habsent a ha
    simpa using ha2
  constructor
  · rw [h2, h1]
  · rw [h2, h1, List.countP_append, hc0]
    simp

/-- Claim C6 (witness): adding `"D05"` and then `" d05.si "` to the
empty watchlist yields exactly the single entry `D05.SI`. -/
theorem uiAdd_same_symbol_once_witness :
    baseSymbol tD05 = baseSymbol tD05lower ∧
    ([] : List WatchlistEntry).all
      (fun item => !decide (item.Ticker = canonSymbol tD05)) = true ∧
    (uiAdd (uiAdd [] tD05 nDBS) tD05lower nDBS =
      [] ++ [WatchlistEntry.mk (canonSymbol tD05) nDBS] ∧
    (uiAdd (uiAdd [] tD05 nDBS) tD05lower nDBS).countP
      (fun item => decide (item.Ticker = canonSymbol tD05)) = 1) :=
  ⟨by decide, by decide,
   uiAdd_same_symbol_once tD05 tD05lower nDBS nDBS [] (by decide) (by decide)⟩
